import Mathlib

/-!
Verification development for the tiktok_scrapper repository.

The repository under scrutiny is a Next.js UI layer (API route handlers in
`ui/app/api/`) over a Python pipeline (search, download, process, upload).
The route handlers are shallowly embedded below: filesystem reads are
explicit `Option` inputs (with `none` standing for a failed read or a failed
JSON parse), the spawned subprocess is an explicit finite event trace, and a
`ReadableStream` controller is an explicit action list.  The Python pipeline
components that the repository documents but whose sources are not present
(uploader, frame selector, search retry) are modelled from the spec; each
such definition says so in its doc comment.
-/

namespace TikTokScrapper

/-! ## JavaScript string primitives used by the routes -/

/-- Embedding of the JavaScript `s.substring(a, b)` (for `a ≤ b`):
the characters of `s` from position `a` (inclusive) to `b` (exclusive). -/
def jsSubstring (s : String) (a b : Nat) : String :=
  String.mk ((s.data.drop a).take (b - a))

/-- Embedding of the JavaScript `hay.includes(needle)`. -/
def strContains (hay needle : String) : Bool :=
  (List.range (hay.data.length + 1)).any (fun i => needle.data.isPrefixOf (hay.data.drop i))

/-- JavaScript falsiness of an optional string: `null`/`undefined` and the
empty string are falsy; route guards of the form `if (!x)` test exactly this. -/
def jsFalsy : Option String → Bool
  | none => true
  | some s => s == ""

/-! ## The results listing route (`ui/app/api/results/route.ts`, GET) -/

namespace ResultsApi

/-- The parsed shape of a per-video `metadata.json` as the route consumes it.
A successful `JSON.parse` is abstracted as producing this record; a missing
file or a parse failure is abstracted as `Option.none` at the call site. -/
structure MetaJson where
  creator_nickname : String
  caption : String
deriving DecidableEq, Repr

/-- The fallback object the route assigns before attempting the read:
`{ creator_nickname: 'Unknown', caption: 'No caption' }`. -/
def defaultMeta : MetaJson := ⟨"Unknown", "No caption"⟩

/-- One entry of the `videos` directory listing, together with the outcomes
of the two per-directory file reads the route performs.  `meta = none`
stands for `metadata.json` missing or unparseable; `transcript = none`
stands for `transcript.txt` unreadable. -/
structure VideoDirEntry where
  name : String
  isDir : Bool
  meta : Option MetaJson
  transcript : Option String
deriving DecidableEq, Repr

/-- The JSON object the route builds for one video directory. -/
structure VideoEntry where
  id : String
  video_url : String
  metadata : MetaJson
  hasTranscript : Bool
  transcriptPreview : String
deriving DecidableEq, Repr

/-- Embedding of the per-directory body of the route: defaulted metadata,
transcript flag, and the `substring(0, 150) + '...'` preview. -/
def videoEntry (tripId queryId : String) (d : VideoDirEntry) : VideoEntry :=
  { id := d.name
  , video_url := "/api/video?tripId=" ++ tripId ++ "&queryId=" ++ queryId ++ "&id=" ++ d.name
  , metadata := d.meta.getD defaultMeta
  , hasTranscript := d.transcript.isSome
  , transcriptPreview :=
      match d.transcript with
      | some t => jsSubstring t 0 150 ++ "..."
      | none => "" }

/-- The HTTP response of the GET handler: a status code and the `videos`
array (empty on the error paths). -/
structure ResultsResponse where
  status : Nat
  videos : List VideoEntry
deriving DecidableEq, Repr

/-- Embedding of the GET handler.  `listing = none` stands for the
`fs.readdir` of the videos directory failing (the catch path, status 500);
otherwise every directory entry is mapped through `videoEntry`. -/
def resultsGET (tripId queryId : Option String) (listing : Option (List VideoDirEntry)) :
    ResultsResponse :=
  if jsFalsy tripId || jsFalsy queryId then ⟨400, []⟩
  else
    match listing with
    | none => ⟨500, []⟩
    | some entries =>
        ⟨200, (entries.filter (fun e => e.isDir)).map
                (videoEntry (tripId.getD "") (queryId.getD ""))⟩

end ResultsApi

/-! ## Slug and identifier generation (`queries` POST and `trips` POST) -/

namespace Slug

/-- A character the slug regex class `[a-z0-9]` accepts. -/
def slugChar (c : Char) : Bool :=
  (decide ('a' ≤ c) && decide (c ≤ 'z')) || (decide ('0' ≤ c) && decide (c ≤ '9'))

/-- One character of `replace(/[^a-z0-9]/g, '-')`: characters outside the
class are replaced by a hyphen. -/
def slugifyChar (c : Char) : Char :=
  if slugChar c then c else '-'

/-- Embedding of `s.toLowerCase()`.  Lean lowercases ASCII letters only,
while JavaScript is Unicode-aware; the difference is immaterial here
because the subsequent `slugifyChar` pass replaces every character outside
`[a-z0-9]` regardless of how it was lowercased. -/
def jsToLower (s : String) : String :=
  String.mk (s.data.map Char.toLower)

/-- `s.toLowerCase().replace(/[^a-z0-9]/g, '-').substring(0, n)`. -/
def slugify (s : String) (n : Nat) : String :=
  String.mk (((jsToLower s).data.map slugifyChar).take n)

/-- The base-36 digit characters `0`-`9`, `a`-`z` used by
`Number.prototype.toString(36)`. -/
def base36Char (d : Fin 36) : Char :=
  if d.val < 10 then Char.ofNat (48 + d.val) else Char.ofNat (87 + d.val)

/-- Embedding of `Math.random().toString(36).substring(2, 6)`: the random
number in `[0, 1)` renders as `0.` followed by its base-36 fractional
digits `r`, of which positions 2 to 5 — the first four fractional digits,
fewer if the rendering is shorter — are kept. -/
def randSuffix (r : List (Fin 36)) : String :=
  String.mk ((r.take 4).map base36Char)

/-- The query id built by the queries POST handler (slug limit 30). -/
def mkQueryId (query : String) (r : List (Fin 36)) : String :=
  slugify query 30 ++ "-" ++ randSuffix r

/-- The trip id built by the trips POST handler (slug limit 20). -/
def mkTripId (title : String) (r : List (Fin 36)) : String :=
  slugify title 20 ++ "-" ++ randSuffix r

/-- A character allowed in a generated id: lowercase letter, digit, hyphen. -/
def idChar (c : Char) : Bool :=
  slugChar c || c == '-'

/-- A string naming a direct child of its parent directory when used as a
path component: nonempty, not a dot link, and free of the separator. -/
def safeChild (s : String) : Bool :=
  (!decide (s = "")) && (!decide (s = ".")) && (!decide (s = "..")) && (!decide ('/' ∈ s.data))

end Slug

/-! ## The queries route (`ui/app/api/queries/route.ts`, GET and POST) -/

namespace QueriesApi

/-- The parsed shape of a per-query `metadata.json` as written by the POST
handler and consumed by the GET handler.  The ISO `createdAt` timestamp is
abstracted as its epoch value, which is what the GET comparator
`new Date(createdAt).getTime()` extracts from it. -/
structure QueryMeta where
  id : String
  query : String
  status : String
  createdAt : Nat
deriving DecidableEq, Repr

/-- One entry of the trip directory listing; `meta = none` stands for that
query subdirectory having a missing or unparseable `metadata.json`. -/
structure QueryDirEntry where
  name : String
  isDir : Bool
  meta : Option QueryMeta
deriving DecidableEq, Repr

/-- The object the GET handler builds per query subdirectory: the parsed
metadata (its own fields winning over the injected id, as the spread
`{ id: dir.name, ...JSON.parse(content) }` does for a fully populated
file), or the fallback `{ id, query: dir.name, status: 'unknown',
createdAt: now }`. -/
def listedQuery (now : Nat) (d : QueryDirEntry) : QueryMeta :=
  match d.meta with
  | some m => m
  | none => ⟨d.name, d.name, "unknown", now⟩

/-- Insertion step of the stable sort by `createdAt` descending. -/
def insertDesc (a : QueryMeta) : List QueryMeta → List QueryMeta
  | [] => [a]
  | b :: bs => if b.createdAt ≤ a.createdAt then a :: b :: bs else b :: insertDesc a bs

/-- Embedding of `queries.sort((a, b) => dateB - dateA)` as a stable
comparison sort; the claims below depend only on it permuting its input. -/
def sortByCreatedAtDesc : List QueryMeta → List QueryMeta
  | [] => []
  | a :: as => insertDesc a (sortByCreatedAtDesc as)

/-- The HTTP response of the queries GET handler. -/
structure QueriesGETResponse where
  status : Nat
  queries : List QueryMeta
deriving DecidableEq, Repr

/-- Embedding of the GET handler.  `listing = none` stands for the
`fs.readdir` of the trip directory failing, which the catch turns into
`NextResponse.json({ queries: [] })` — status 200.  Directory entries are
kept when they are directories not named `videos`. -/
def queriesGET (tripId : Option String) (now : Nat)
    (listing : Option (List QueryDirEntry)) : QueriesGETResponse :=
  if jsFalsy tripId then ⟨400, []⟩
  else
    match listing with
    | none => ⟨200, []⟩
    | some entries =>
        ⟨200, sortByCreatedAtDesc
            ((entries.filter (fun e => e.isDir && !(e.name == "videos"))).map
              (listedQuery now))⟩

/-- The parsed POST body; `none` fields stand for absent JSON keys. -/
structure QueriesPostBody where
  tripId : Option String
  query : Option String
deriving DecidableEq, Repr

/-- The observable outcome of the POST handler: an error status, or the
created query id together with the metadata record written to
`metadata.json`. -/
inductive QueriesPostResult where
  | err (status : Nat)
  | created (queryId : String) (written : QueryMeta)
deriving DecidableEq, Repr

/-- Embedding of the POST handler.  `body = none` stands for `req.json()`
failing (the catch path, status 500); the two falsiness guards return 400;
otherwise the slug id is formed and the metadata record written with
status `idle`. -/
def queriesPOST (body : Option QueriesPostBody) (rand : List (Fin 36)) (now : Nat) :
    QueriesPostResult :=
  match body with
  | none => .err 500
  | some b =>
    if jsFalsy b.tripId then .err 400
    else if jsFalsy b.query then .err 400
    else
      let q := b.query.getD ""
      let queryId := Slug.mkQueryId q rand
      .created queryId ⟨queryId, q, "idle", now⟩

end QueriesApi

/-! ## The subprocess streaming routes
(`ui/app/api/search|download|process/route.ts`, POST)

Each handler spawns a Python subprocess and returns a `ReadableStream`
whose `start` callback enqueues every stdout and stderr data chunk, then on
the close event enqueues an error line when the exit code is nonzero and
closes the controller.  The subprocess is embedded as a finite trace of
Node events (data chunks in delivery order, then one close event carrying
the exit code), and the controller as the list of actions it performs. -/

namespace StreamApi

/-- A Node child-process event as observed by the handlers. -/
inductive NodeEvent where
  | out (s : String)
  | err (s : String)
  | closed (code : Int)
deriving DecidableEq, Repr

/-- An action performed on the `ReadableStream` controller. -/
inductive StreamAction where
  | chunk (s : String)
  | close
deriving DecidableEq, Repr

/-- The three streaming endpoints. -/
inductive Route where
  | download
  | process
  | search
deriving DecidableEq, Repr

/-- The per-route name used in the final error line. -/
def exitName : Route → String
  | .download => "Downloader"
  | .process => "Processor"
  | .search => "Search script"

/-- The error line enqueued when the subprocess exits nonzero. -/
def errorLine (r : Route) (code : Int) : String :=
  "\nError: " ++ exitName r ++ " exited with code " ++ toString code

/-- The chunk (if any) a data event contributes.  The download and process
handlers enqueue every stdout and stderr chunk; the search handler drops
stderr chunks whose text contains `Progress:`. -/
def emitChunk (r : Route) : NodeEvent → Option String
  | .out s => some s
  | .err s =>
    match r with
    | .search => if strContains s "Progress:" then none else some s
    | _ => some s
  | .closed _ => none

/-- The action suffix contributed by the close handler before closing:
the error line exactly when the exit code is nonzero. -/
def errSuffix (r : Route) (code : Int) : List StreamAction :=
  if code ≠ 0 then [.chunk (errorLine r code)] else []

/-- One delivered event against the controller state (actions so far,
closed flag).  After the controller has closed, no further action occurs. -/
def stepEvent (r : Route) (acc : List StreamAction × Bool) (e : NodeEvent) :
    List StreamAction × Bool :=
  match acc with
  | (as, true) => (as, true)
  | (as, false) =>
    match e with
    | .closed code => (as ++ errSuffix r code ++ [.close], true)
    | d =>
      match emitChunk r d with
      | some s => (as ++ [.chunk s], false)
      | none => (as, false)

/-- The full action list produced by delivering an event trace. -/
def runStream (r : Route) (events : List NodeEvent) : List StreamAction :=
  (events.foldl (stepEvent r) ([], false)).1

/-- The stream produced by a subprocess run: its data events in delivery
order followed by the close event carrying the exit code. -/
def routeStream (r : Route) (datas : List NodeEvent) (code : Int) : List StreamAction :=
  runStream r (datas ++ [.closed code])

/-- A data (non-close) event. -/
def dataOnly : NodeEvent → Bool
  | .closed _ => false
  | _ => true

/-- The text carried by a data event. -/
def eventText : NodeEvent → Option String
  | .out s => some s
  | .err s => some s
  | .closed _ => none

/-- The chunk texts of an action list, in order. -/
def chunksOf (l : List StreamAction) : List String :=
  l.filterMap (fun a => match a with | .chunk s => some s | .close => none)

/-- A subprocess run: data events then an exit code. -/
structure SpawnRun where
  datas : List NodeEvent
  code : Int
deriving DecidableEq, Repr

/-- The HTTP response of a streaming POST handler. -/
structure StreamResponse where
  status : Nat
  body : List StreamAction
deriving DecidableEq, Repr

/-- Embedding of the download POST handler: `body = none` stands for
`req.json()` failing (caught, status 500); otherwise the handler returns
the stream with the default status 200 regardless of the subprocess
outcome. -/
def downloadPOST (body : Option String) (run : SpawnRun) : StreamResponse :=
  match body with
  | none => ⟨500, []⟩
  | some _tripId => ⟨200, routeStream .download run.datas run.code⟩

/-- Embedding of the process POST handler, identical in shape to
`downloadPOST`. -/
def processPOST (body : Option String) (run : SpawnRun) : StreamResponse :=
  match body with
  | none => ⟨500, []⟩
  | some _tripId => ⟨200, routeStream .process run.datas run.code⟩

end StreamApi

/-! ## Spec-modelled pipeline components

The Python pipeline sources (`upload.py`, `pipeline.py`, `process.py`) are
not part of the repository snapshot; only the spec and the repository
documentation describe them.  The definitions below are modelled from the
spec, as their doc comments state. -/

namespace Uploader

/-- An observable event of the per-video persist sequence. -/
inductive UpEvent where
  | storagePut (vid : String) (ok : Bool)
  | recordInsert (vid : String) (ok : Bool)
  | readBack (vid : String) (ok : Bool)
  | deleteLocal (vid : String)
deriving DecidableEq, Repr

/-- Modelled from the spec: the persist sequence of `upload.py`, whose
source is missing from the snapshot.  Spec §4.6: (1) upload validated
artifacts to object storage; (2) insert the durable record; (3) read back
to positively confirm the record exists; (4) only after step 3 succeeds,
delete local raw media and artifacts; if step 1 or 2 fails, nothing is
deleted.  The three booleans are the outcomes of steps 1-3. -/
def uploaderTrace (vid : String) (putOk insOk rbOk : Bool) : List UpEvent :=
  .storagePut vid putOk ::
    (if putOk then
      .recordInsert vid insOk ::
        (if insOk then
          .readBack vid rbOk :: (if rbOk then [.deleteLocal vid] else [])
        else [])
    else [])

end Uploader

namespace Orchestrator

/-- An observable event of the search stage retry loop. -/
inductive SearchEv where
  | attempt (k : Nat)
  | gap (secs : Nat)
deriving DecidableEq, Repr

/-- The outcome of the search stage. -/
inductive SearchOutcome where
  | found (k : Nat)
  | search_failed
deriving DecidableEq, Repr

/-- Whether an event is a search attempt. -/
def isAttempt : SearchEv → Bool
  | .attempt _ => true
  | _ => false

/-- The seconds carried by a gap event. -/
def gapSecs : SearchEv → Option Nat
  | .gap s => some s
  | _ => none

/-- Modelled from the spec: the exponential backoff of the search stage of
`pipeline.py`, whose source is missing from the snapshot — 2s, 4s, 8s for
the successive failed attempts. -/
def searchBackoff (k : Nat) : Nat := 2 * 2 ^ k

/-- Modelled from the spec: the bounded retry loop of the search stage of
`pipeline.py`.  Attempt `k`; on success stop; on failure back off
`searchBackoff k` seconds and retry, up to the fuel bound; when the fuel
is exhausted the query is marked `search_failed`. -/
def searchRetryAux (succ : Nat → Bool) : Nat → Nat → List SearchEv × SearchOutcome
  | _, 0 => ([], .search_failed)
  | k, fuel + 1 =>
    if succ k then ([.attempt k], .found k)
    else
      let rest := searchRetryAux succ (k + 1) fuel
      (.attempt k :: .gap (searchBackoff k) :: rest.1, rest.2)

/-- Modelled from the spec: the search stage makes at most 3 attempts. -/
def searchRetry (succ : Nat → Bool) : List SearchEv × SearchOutcome :=
  searchRetryAux succ 0 3

end Orchestrator

namespace FrameSelector

/-- One extracted frame: its index, its timestamp, and the OCR text
detected on it.  The frames list of a bundle is ordered by timestamp, so
position order and timestamp order agree. -/
structure Frame where
  idx : Nat
  ts : Nat
  ocrText : String
deriving DecidableEq, Repr

/-- One transcript segment. -/
structure Segment where
  start : Nat
  stop : Nat
  text : String
deriving DecidableEq, Repr

/-- The parts of an ArtifactBundle the frame selector consumes. -/
structure ArtifactBundle where
  frames : List Frame
  segments : List Segment
deriving DecidableEq, Repr

/-- Trimming of leading and trailing whitespace, on the character list. -/
def jsTrim (s : String) : String :=
  String.mk (((s.data.dropWhile Char.isWhitespace).reverse.dropWhile
    Char.isWhitespace).reverse)

/-- Modelled from the spec: the OCR text normalisation used for change
detection — trimmed, lowercased, truncated to a fixed comparison length. -/
def normText (k : Nat) (s : String) : String :=
  String.mk (((jsTrim s).data.map Char.toLower).take k)

/-- Modelled from the spec: walk the frames in timestamp order, keeping a
frame whenever its normalised OCR text differs from the previous kept
frame.  `i` is the position of the head frame, `prev` the normalised text
of the last kept frame. -/
def ocrChangeAux (k : Nat) (i : Nat) (prev : Option String) : List Frame → List Nat
  | [] => []
  | f :: fs =>
    if prev = some (normText k f.ocrText) then ocrChangeAux k (i + 1) prev fs
    else i :: ocrChangeAux k (i + 1) (some (normText k f.ocrText)) fs

/-- The OCR-change selection (spec §4.5 step 1). -/
def ocrChangeIdxs (k : Nat) (frames : List Frame) : List Nat :=
  ocrChangeAux k 0 none frames

/-- Modelled from the spec: the position of the frame whose timestamp is
nearest to `t` (first wins on ties), 0 when there are no frames. -/
def nearestIdx (frames : List Frame) (t : Nat) : Nat :=
  (frames.enum.foldl
    (fun best p =>
      match best with
      | none => some (p.1, max p.2.ts t - min p.2.ts t)
      | some (bi, bd) =>
        if max p.2.ts t - min p.2.ts t < bd then
          some (p.1, max p.2.ts t - min p.2.ts t)
        else some (bi, bd))
    none).elim 0 Prod.fst

/-- Fixed-interval sampling: every `n`-th position (spec §4.5 step 3). -/
def everyNth (n F : Nat) : List Nat :=
  (List.range F).filter (fun i => i % n == 0)

/-- Modelled from the spec: the accumulated candidate set of §4.5 steps
1-3 — OCR-change frames; if fewer than 3 were selected and transcript
segments exist, the frame nearest each segment start; if still fewer
than 3, fixed-interval samples. -/
def candidateSet (interval cmpLen : Nat) (b : ArtifactBundle) : Finset Nat :=
  let s1 : Finset Nat := (ocrChangeIdxs cmpLen b.frames).toFinset
  let s2 : Finset Nat :=
    if s1.card < 3 ∧ b.segments ≠ [] then
      s1 ∪ (b.segments.map (fun sg => nearestIdx b.frames sg.start)).toFinset
    else s1
  if s2.card < 3 then s2 ∪ (everyNth interval b.frames.length).toFinset else s2

/-- Modelled from the spec: §4.5 steps 4-5 (first half) — force-include
the first and last frame, then sort the set by timestamp; positions are
listed ascending, which is timestamp order. -/
def selectedSorted (interval cmpLen : Nat) (b : ArtifactBundle) : List Nat :=
  (List.range b.frames.length).filter
    (fun i => decide (i ∈ insert 0 (insert (b.frames.length - 1)
      (candidateSet interval cmpLen b))))

/-- Modelled from the spec: §4.5 step 5 — truncate to `maxFrames`
(default 20), keeping the earliest frames but never dropping the
first/last guarantee, so the last frame survives truncation. -/
def selectFrames (maxFrames interval cmpLen : Nat) (b : ArtifactBundle) : List Nat :=
  if (selectedSorted interval cmpLen b).length ≤ maxFrames then
    selectedSorted interval cmpLen b
  else
    (selectedSorted interval cmpLen b).take (maxFrames - 1) ++ [b.frames.length - 1]

/-- A concrete 25-frame bundle (distinct OCR text on every frame, no
transcript segments) used to witness the frame-selection bounds. -/
def demoBundle : ArtifactBundle :=
  { frames := (List.range 25).map (fun i => ⟨i, i * 10, toString i⟩)
  , segments := [] }

end FrameSelector

end TikTokScrapper

namespace TikTokScrapper

open ResultsApi

/-! ## Theorems -/

theorem jsFalsy_some_eq_false {s : String} (h : s ≠ "") : jsFalsy (some s) = false := by
  simp [jsFalsy, h]

/-- C1 counterexample: at a concrete video directory whose `metadata.json`
read fails, the listed entry defaults `creator_nickname` to `"Unknown"`
(not to the claimed sentinel `"Unknown creator"`) and `caption` to
`"No caption"` (not to the claimed empty caption). -/
theorem c1_counterexample :
    (resultsGET (some "trip1") (some "query1")
        (some [⟨"vid1", true, none, none⟩])).videos =
      [⟨"vid1", "/api/video?tripId=trip1&queryId=query1&id=vid1",
        ⟨"Unknown", "No caption"⟩, false, ""⟩] ∧
    ("Unknown" : String) ≠ "Unknown creator" ∧
    (⟨"Unknown", "No caption"⟩ : MetaJson).caption ≠ "" := by
  refine ⟨?_, by decide, by decide⟩
  rfl

/-- C1 (amended): for every video directory whose `metadata.json` is missing
or unparseable, the results listing still returns an entry for that video,
with the metadata defaulted to `creator_nickname = "Unknown"` and
`caption = "No caption"`, and the listing as a whole succeeds with
status 200 rather than failing. -/
theorem c1_results_listing_defaults
    (tripId queryId : String) (entries : List VideoDirEntry) (d : VideoDirEntry)
    (htrip : tripId ≠ "") (hquery : queryId ≠ "")
    (hmem : d ∈ entries) (hdir : d.isDir = true) (hmeta : d.meta = none) :
    (resultsGET (some tripId) (some queryId) (some entries)).status = 200 ∧
    ∃ e ∈ (resultsGET (some tripId) (some queryId) (some entries)).videos,
      e.id = d.name ∧ e.metadata = defaultMeta := by
  have hfalse : (jsFalsy (some tripId) || jsFalsy (some queryId)) = false := by
    rw [jsFalsy_some_eq_false htrip, jsFalsy_some_eq_false hquery, Bool.or_self]
  constructor
  · simp [resultsGET, hfalse]
  · refine ⟨videoEntry tripId queryId d, ?_, rfl, ?_⟩
    · simp only [resultsGET, hfalse, Bool.false_eq_true, if_false]
      simp only [Option.getD_some]
      exact List.mem_map_of_mem _ (List.mem_filter.mpr ⟨hmem, hdir⟩)
    · simp [videoEntry, hmeta]

/-- C1 witness: the amended theorem applied at a concrete listing with one
directory whose metadata read failed. -/
theorem c1_witness :
    (resultsGET (some "trip1") (some "query1")
        (some [⟨"vid1", true, none, none⟩])).status = 200 ∧
    ∃ e ∈ (resultsGET (some "trip1") (some "query1")
        (some [⟨"vid1", true, none, none⟩])).videos,
      e.id = "vid1" ∧ e.metadata = defaultMeta :=
  c1_results_listing_defaults "trip1" "query1" [⟨"vid1", true, none, none⟩]
    ⟨"vid1", true, none, none⟩ (by decide) (by decide) (by decide) rfl rfl

/-- C8: for every video directory, the listed entry has
`hasTranscript = true` iff `transcript.txt` was readable; when readable the
preview is the first 150 characters followed by `"..."` (the suffix is
appended even when the transcript is shorter than 150 characters); when
unreadable the preview is the empty string. -/
theorem c8_transcript_preview (tripId queryId : String) (d : VideoDirEntry) :
    ((videoEntry tripId queryId d).hasTranscript = true ↔ d.transcript.isSome = true) ∧
    (∀ t, d.transcript = some t →
      (videoEntry tripId queryId d).transcriptPreview =
        String.mk (t.data.take 150) ++ "...") ∧
    (∀ t, d.transcript = some t → t.data.length ≤ 150 →
      (videoEntry tripId queryId d).transcriptPreview = t ++ "...") ∧
    (d.transcript = none → (videoEntry tripId queryId d).transcriptPreview = "") := by
  refine ⟨by simp [videoEntry], ?_, ?_, ?_⟩
  · intro t ht
    simp [videoEntry, ht, jsSubstring]
  · intro t ht hlen
    simp only [videoEntry, ht]
    have htake : (t.data.drop 0).take (150 - 0) = t.data := by
      simpa using List.take_of_length_le hlen
    show jsSubstring t 0 150 ++ "..." = t ++ "..."
    rw [jsSubstring, htake]
  · intro ht
    simp [videoEntry, ht]

/-- C8 witness: the theorem applied at a concrete directory with a short
transcript, showing the suffix is appended to the whole text. -/
theorem c8_witness :
    (videoEntry "trip1" "query1" ⟨"vid1", true, none, some "hello"⟩).transcriptPreview =
      "hello" ++ "..." ∧
    (videoEntry "trip1" "query1" ⟨"vid1", true, none, some "hello"⟩).hasTranscript = true :=
  ⟨(c8_transcript_preview "trip1" "query1" ⟨"vid1", true, none, some "hello"⟩).2.2.1
      "hello" rfl (by decide),
   (c8_transcript_preview "trip1" "query1" ⟨"vid1", true, none, some "hello"⟩).1.mpr rfl⟩

open Slug QueriesApi

theorem idChar_slugifyChar (c : Char) : idChar (slugifyChar c) = true := by
  unfold slugifyChar
  by_cases h : slugChar c = true
  · simp [h, idChar]
  · simp [h]
    decide

theorem all_idChar_slugify (s : String) (n : Nat) :
    (slugify s n).data.all idChar = true := by
  show ((((jsToLower s).data.map slugifyChar).take n).all idChar) = true
  rw [List.all_eq_true]
  intro c hc
  obtain ⟨a, _, rfl⟩ := List.mem_map.mp (List.mem_of_mem_take hc)
  exact idChar_slugifyChar a

theorem idChar_base36Char (d : Fin 36) : idChar (base36Char d) = true := by
  revert d
  decide

theorem all_idChar_randSuffix (r : List (Fin 36)) :
    (randSuffix r).data.all idChar = true := by
  show (((r.take 4).map base36Char).all idChar) = true
  rw [List.all_eq_true]
  intro c hc
  obtain ⟨a, _, rfl⟩ := List.mem_map.mp hc
  exact idChar_base36Char a

theorem safeChild_of_all_idChar (s : String)
    (hall : s.data.all idChar = true) (hne : s.data ≠ []) : safeChild s = true := by
  have hmem : ∀ c ∈ s.data, idChar c = true := List.all_eq_true.mp hall
  simp only [safeChild, Bool.and_eq_true, Bool.not_eq_true', decide_eq_false_iff_not]
  refine ⟨⟨⟨?_, ?_⟩, ?_⟩, ?_⟩
  · intro h
    exact hne (congrArg String.data h)
  · intro h
    have := hmem '.' (by rw [congrArg String.data h]; exact List.mem_singleton.mpr rfl)
    exact absurd this (by decide)
  · intro h
    have := hmem '.' (by rw [congrArg String.data h]; exact List.mem_cons_self _ _)
    exact absurd this (by decide)
  · intro h
    exact absurd (hmem '/' h) (by decide)

/-- C9: for every input string and random outcome, the generated query and
trip ids consist only of lowercase ASCII letters, digits and hyphens; the
slug part is at most 30 characters for queries and 20 for trips, the random
base-36 tail at most 4; and hence the id is always a safe direct-child path
component (nonempty, not `.` or `..`, containing no separator). -/
theorem c9_id_charset (query title : String) (r1 r2 : List (Fin 36)) :
    (mkQueryId query r1).data.all idChar = true ∧
    safeChild (mkQueryId query r1) = true ∧
    (slugify query 30).length ≤ 30 ∧
    (mkTripId title r2).data.all idChar = true ∧
    safeChild (mkTripId title r2) = true ∧
    (slugify title 20).length ≤ 20 ∧
    (randSuffix r1).length ≤ 4 ∧
    (randSuffix r2).length ≤ 4 := by
  have hq : (mkQueryId query r1).data =
      (slugify query 30).data ++ ['-'] ++ (randSuffix r1).data := rfl
  have ht : (mkTripId title r2).data =
      (slugify title 20).data ++ ['-'] ++ (randSuffix r2).data := rfl
  have hallq : (mkQueryId query r1).data.all idChar = true := by
    rw [hq, List.all_append, List.all_append]
    simp [all_idChar_slugify, all_idChar_randSuffix]
    decide
  have hallt : (mkTripId title r2).data.all idChar = true := by
    rw [ht, List.all_append, List.all_append]
    simp [all_idChar_slugify, all_idChar_randSuffix]
    decide
  have hslug : ∀ (s : String) (n : Nat), (slugify s n).length ≤ n := by
    intro s n
    show (((jsToLower s).data.map slugifyChar).take n).length ≤ n
    rw [List.length_take]
    exact min_le_left _ _
  have hsfx : ∀ r : List (Fin 36), (randSuffix r).length ≤ 4 := by
    intro r
    show ((r.take 4).map base36Char).length ≤ 4
    rw [List.length_map, List.length_take]
    exact min_le_left _ _
  refine ⟨hallq, safeChild_of_all_idChar _ hallq ?_, hslug query 30,
          hallt, safeChild_of_all_idChar _ hallt ?_, hslug title 20,
          hsfx r1, hsfx r2⟩
  · rw [hq]
    simp
  · rw [ht]
    simp

theorem mem_insertDesc (a x : QueryMeta) (l : List QueryMeta) :
    a ∈ insertDesc x l ↔ a = x ∨ a ∈ l := by
  induction l with
  | nil => simp [insertDesc]
  | cons b bs ih =>
    by_cases h : b.createdAt ≤ x.createdAt
    · simp [insertDesc, h]
    · simp only [insertDesc, if_neg h, List.mem_cons, ih]
      tauto

theorem mem_sortByCreatedAtDesc (a : QueryMeta) (l : List QueryMeta) :
    a ∈ sortByCreatedAtDesc l ↔ a ∈ l := by
  induction l with
  | nil => simp [sortByCreatedAtDesc]
  | cons b bs ih => simp [sortByCreatedAtDesc, mem_insertDesc, ih]

/-- C10: for every tripId whose trip directory cannot be read, the queries
GET handler returns status 200 with an empty queries list, never an error
status; and every query subdirectory (a directory entry not named
`videos`) whose own `metadata.json` is missing or unparseable is still
listed, with its query field defaulted to the directory name and its
status defaulted to `unknown`. -/
theorem c10_queries_listing_error_handling (tripId : String) (now : Nat)
    (htrip : tripId ≠ "") :
    queriesGET (some tripId) now none = ⟨200, []⟩ ∧
    (∀ entries (d : QueryDirEntry), d ∈ entries → d.isDir = true →
      d.name ≠ "videos" → d.meta = none →
      (queriesGET (some tripId) now (some entries)).status = 200 ∧
      (⟨d.name, d.name, "unknown", now⟩ : QueryMeta) ∈
        (queriesGET (some tripId) now (some entries)).queries) := by
  have hfalse := jsFalsy_some_eq_false htrip
  constructor
  · simp [queriesGET, hfalse]
  · intro entries d hmem hdir hname hmeta
    constructor
    · simp [queriesGET, hfalse]
    · simp only [queriesGET, hfalse, Bool.false_eq_true, if_false]
      rw [mem_sortByCreatedAtDesc]
      have hres : listedQuery now d = ⟨d.name, d.name, "unknown", now⟩ := by
        simp [listedQuery, hmeta]
      rw [← hres]
      refine List.mem_map_of_mem _ (List.mem_filter.mpr ⟨hmem, ?_⟩)
      simp [hdir, hname]

/-- C10 witness: the theorem applied at a concrete trip id, a failed
directory read, and a one-entry listing whose metadata read failed. -/
theorem c10_witness :
    queriesGET (some "trip1") 5 none = ⟨200, []⟩ ∧
    (⟨"q1", "q1", "unknown", 5⟩ : QueryMeta) ∈
      (queriesGET (some "trip1") 5 (some [⟨"q1", true, none⟩])).queries :=
  ⟨(c10_queries_listing_error_handling "trip1" 5 (by decide)).1,
   ((c10_queries_listing_error_handling "trip1" 5 (by decide)).2
      [⟨"q1", true, none⟩] ⟨"q1", true, none⟩ (List.mem_singleton.mpr rfl) rfl
      (by decide) rfl).2⟩

/-- C6: every newly created query record begins in the idle state: the
queries POST handler, given a non-falsy trip id and query, writes a
metadata record whose status field is `idle`. -/
theorem c6_new_query_starts_idle (tripId q : String) (rand : List (Fin 36)) (now : Nat)
    (htrip : tripId ≠ "") (hq : q ≠ "") :
    queriesPOST (some ⟨some tripId, some q⟩) rand now =
      .created (mkQueryId q rand) ⟨mkQueryId q rand, q, "idle", now⟩ ∧
    (∀ qid m, queriesPOST (some ⟨some tripId, some q⟩) rand now = .created qid m →
      m.status = "idle") := by
  have h1 := jsFalsy_some_eq_false htrip
  have h2 := jsFalsy_some_eq_false hq
  have heq : queriesPOST (some ⟨some tripId, some q⟩) rand now =
      .created (mkQueryId q rand) ⟨mkQueryId q rand, q, "idle", now⟩ := by
    simp [queriesPOST, h1, h2]
  refine ⟨heq, ?_⟩
  intro qid m hm
  rw [heq] at hm
  cases hm
  rfl

/-- C6 witness: the theorem applied at a concrete trip id and query. -/
theorem c6_witness :
    queriesPOST (some ⟨some "trip1", some "Tokyo Food"⟩) [⟨10, by decide⟩] 7 =
      .created (mkQueryId "Tokyo Food" [⟨10, by decide⟩])
        ⟨mkQueryId "Tokyo Food" [⟨10, by decide⟩], "Tokyo Food", "idle", 7⟩ :=
  (c6_new_query_starts_idle "trip1" "Tokyo Food" [⟨10, by decide⟩] 7
    (by decide) (by decide)).1

open StreamApi

theorem foldl_stepEvent_data (r : Route) (datas : List NodeEvent)
    (h : datas.all dataOnly = true) (as : List StreamAction) :
    datas.foldl (stepEvent r) (as, false) =
      (as ++ (datas.filterMap (emitChunk r)).map StreamAction.chunk, false) := by
  induction datas generalizing as with
  | nil => simp
  | cons e es ih =>
    have he : dataOnly e = true := (List.all_eq_true.mp h) e (List.mem_cons_self _ _)
    have hes : es.all dataOnly = true := by
      rw [List.all_eq_true]
      intro x hx
      exact (List.all_eq_true.mp h) x (List.mem_cons_of_mem _ hx)
    cases e with
    | closed code => simp [dataOnly] at he
    | out s =>
      simp only [List.foldl_cons, stepEvent, emitChunk]
      rw [ih hes]
      simp [List.filterMap_cons, emitChunk]
    | err s =>
      simp only [List.foldl_cons, stepEvent]
      cases hemit : emitChunk r (.err s) with
      | some t =>
        simp only [hemit]
        rw [ih hes]
        simp [List.filterMap_cons, hemit]
      | none =>
        simp only [hemit]
        rw [ih hes]
        simp [List.filterMap_cons, hemit]

theorem routeStream_eq (r : Route) (datas : List NodeEvent) (code : Int)
    (h : datas.all dataOnly = true) :
    routeStream r datas code =
      (datas.filterMap (emitChunk r)).map StreamAction.chunk ++
        errSuffix r code ++ [.close] := by
  unfold routeStream runStream
  rw [List.foldl_append, foldl_stepEvent_data r datas h]
  simp [stepEvent]

/-- C2 counterexample: on the search endpoint, a run whose only output is a
stderr chunk containing `Progress:` is not forwarded — the stream closes
with no chunk at all — refuting that the output of every run of the three
endpoints is forwarded in full. -/
theorem c2_counterexample :
    routeStream Route.search [NodeEvent.err "Progress: 50%"] 0 =
      [StreamAction.close] ∧
    StreamAction.chunk "Progress: 50%" ∉
      routeStream Route.search [NodeEvent.err "Progress: 50%"] 0 := by
  decide

/-- C2 (amended): for every run of the search, download or process
endpoint, the stream is exactly the forwarded data chunks in delivery
order — all of them for download and process, while search omits stderr
chunks containing `Progress:` — followed by the error line naming the exit
code exactly when the code is nonzero, followed by a single close that
ends the stream. -/
theorem c2_stream_forwarding (r : Route) (datas : List NodeEvent) (code : Int)
    (h : datas.all dataOnly = true) :
    routeStream r datas code =
      (datas.filterMap (emitChunk r)).map StreamAction.chunk ++
        errSuffix r code ++ [.close] ∧
    chunksOf (routeStream r datas code) =
      datas.filterMap (emitChunk r) ++
        (if code ≠ 0 then [errorLine r code] else []) ∧
    (routeStream r datas code).count .close = 1 ∧
    (routeStream r datas code).getLast? = some .close ∧
    (errSuffix r code = [.chunk (errorLine r code)] ↔ code ≠ 0) ∧
    (errSuffix r code = [] ↔ code = 0) ∧
    ((r = Route.download ∨ r = Route.process) →
      datas.filterMap (emitChunk r) = datas.filterMap eventText) := by
  have heq := routeStream_eq r datas code h
  refine ⟨heq, ?_, ?_, ?_, ?_, ?_, ?_⟩
  · rw [heq]
    unfold chunksOf
    rw [List.filterMap_append, List.filterMap_append, List.filterMap_map]
    have hcomp : ((fun a => match a with
        | StreamAction.chunk s => some s
        | StreamAction.close => none) ∘ StreamAction.chunk) = some :=
      funext (fun s => rfl)
    rw [hcomp, List.filterMap_some]
    by_cases hc : code = 0 <;> simp [errSuffix, hc]
  · rw [heq]
    rw [List.count_append, List.count_append]
    have h1 : ((datas.filterMap (emitChunk r)).map StreamAction.chunk).count .close = 0 := by
      rw [List.count_eq_zero]
      simp
    have h2 : (errSuffix r code).count .close = 0 := by
      rw [List.count_eq_zero]
      unfold errSuffix
      by_cases hc : code = 0 <;> simp [hc]
    rw [h1, h2]
    rfl
  · rw [heq, List.append_assoc]
    rw [show errSuffix r code ++ [StreamAction.close] =
          errSuffix r code ++ [StreamAction.close] from rfl]
    rw [← List.append_assoc, List.getLast?_concat]
  · unfold errSuffix
    by_cases hc : code = 0 <;> simp [hc]
  · unfold errSuffix
    by_cases hc : code = 0 <;> simp [hc]
  · rintro (rfl | rfl) <;>
      exact List.filterMap_congr (fun e _ => by cases e <;> rfl)

/-- C2 witness: the amended theorem applied to a concrete search run with
one stdout chunk, one filtered stderr chunk, and a nonzero exit code. -/
theorem c2_witness :
    routeStream Route.search [NodeEvent.out "found 3", NodeEvent.err "Progress: 10%"] 1 =
      ([NodeEvent.out "found 3", NodeEvent.err "Progress: 10%"].filterMap
          (emitChunk Route.search)).map StreamAction.chunk ++
        errSuffix Route.search 1 ++ [.close] ∧
    routeStream Route.search [NodeEvent.out "found 3", NodeEvent.err "Progress: 10%"] 1 =
      [StreamAction.chunk "found 3", StreamAction.chunk (errorLine Route.search 1),
        StreamAction.close] :=
  ⟨(c2_stream_forwarding Route.search
      [NodeEvent.out "found 3", NodeEvent.err "Progress: 10%"] 1 (by decide)).1,
   ((c2_stream_forwarding Route.search
      [NodeEvent.out "found 3", NodeEvent.err "Progress: 10%"] 1 (by decide)).1).trans
      (by decide)⟩

/-- C7: for every parsed request and every subprocess run, the download and
process endpoints respond with status 200 — a nonzero per-run subprocess
exit code leaves the response status exactly what it is for a successful
run — and the failure is reported only inside the streamed body, as the
error line appended exactly when the exit code is nonzero. -/
theorem c7_subprocess_failure_keeps_status (tripId : String) (run : SpawnRun)
    (h : run.datas.all dataOnly = true) :
    (downloadPOST (some tripId) run).status = 200 ∧
    (processPOST (some tripId) run).status = 200 ∧
    (downloadPOST (some tripId) run).status =
      (downloadPOST (some tripId) ⟨run.datas, 0⟩).status ∧
    (processPOST (some tripId) run).status =
      (processPOST (some tripId) ⟨run.datas, 0⟩).status ∧
    (downloadPOST (some tripId) run).body =
      (run.datas.filterMap (emitChunk .download)).map StreamAction.chunk ++
        errSuffix .download run.code ++ [.close] ∧
    (processPOST (some tripId) run).body =
      (run.datas.filterMap (emitChunk .process)).map StreamAction.chunk ++
        errSuffix .process run.code ++ [.close] ∧
    (errSuffix .download run.code = [] ↔ run.code = 0) := by
  refine ⟨rfl, rfl, rfl, rfl, ?_, ?_, ?_⟩
  · exact routeStream_eq .download run.datas run.code h
  · exact routeStream_eq .process run.datas run.code h
  · unfold errSuffix
    by_cases hc : run.code = 0 <;> simp [hc]

/-- C7 witness: the theorem applied to a concrete failing run (exit code 1)
of both endpoints. -/
theorem c7_witness :
    (downloadPOST (some "trip1") ⟨[NodeEvent.out "downloading"], 1⟩).status = 200 ∧
    (processPOST (some "trip1") ⟨[NodeEvent.out "downloading"], 1⟩).status = 200 :=
  ⟨(c7_subprocess_failure_keeps_status "trip1" ⟨[NodeEvent.out "downloading"], 1⟩
      (by decide)).1,
   (c7_subprocess_failure_keeps_status "trip1" ⟨[NodeEvent.out "downloading"], 1⟩
      (by decide)).2.1⟩

open Uploader Orchestrator FrameSelector

theorem uploaderTrace_delete_mem (vid : String) (putOk insOk rbOk : Bool)
    (h : UpEvent.deleteLocal vid ∈ uploaderTrace vid putOk insOk rbOk) :
    putOk = true ∧ insOk = true ∧ rbOk = true := by
  cases putOk <;> cases insOk <;> cases rbOk <;> simp_all [uploaderTrace]

/-- C3: in every trace of the uploader persist sequence, a local media
deletion for a video only occurs at a position strictly after a successful
durable-record read-back for that video id; and if the storage upload or
the record insert fails, no deletion occurs at all. -/
theorem c3_delete_after_confirm (vid : String) (putOk insOk rbOk : Bool) :
    (∀ i, (uploaderTrace vid putOk insOk rbOk).get? i = some (.deleteLocal vid) →
      ∃ j, j < i ∧ (uploaderTrace vid putOk insOk rbOk).get? j =
        some (.readBack vid true)) ∧
    ((putOk = false ∨ insOk = false) →
      UpEvent.deleteLocal vid ∉ uploaderTrace vid putOk insOk rbOk) := by
  constructor
  · intro i hi
    have hmem : UpEvent.deleteLocal vid ∈ uploaderTrace vid putOk insOk rbOk :=
      List.get?_mem hi
    obtain ⟨h1, h2, h3⟩ := uploaderTrace_delete_mem vid putOk insOk rbOk hmem
    subst h1
    subst h2
    subst h3
    rcases i with _ | _ | _ | _ | i
    · simp [uploaderTrace] at hi
    · simp [uploaderTrace] at hi
    · simp [uploaderTrace] at hi
    · exact ⟨2, by omega, rfl⟩
    · simp [uploaderTrace] at hi
  · rintro (rfl | rfl)
    · simp [uploaderTrace]
    · cases putOk <;> simp [uploaderTrace]

/-- C3 witness: the theorem applied to the all-successful trace of a
concrete video, extracting the confirmation strictly before the deletion
at position 3. -/
theorem c3_witness :
    ∃ j, j < 3 ∧ (uploaderTrace "vid7" true true true).get? j =
      some (UpEvent.readBack "vid7" true) :=
  (c3_delete_after_confirm "vid7" true true true).1 3 rfl

/-- C5: a search stage whose every attempt fails is attempted exactly 3
times, with backoff gaps of 2s, 4s and 8s following the successive failed
attempts, before the query is marked search failed. -/
theorem c5_search_retry_bound (succ : Nat → Bool) (h : ∀ k, succ k = false) :
    searchRetry succ =
      ([.attempt 0, .gap 2, .attempt 1, .gap 4, .attempt 2, .gap 8],
        .search_failed) ∧
    ((searchRetry succ).1.filter isAttempt).length = 3 ∧
    (searchRetry succ).1.filterMap gapSecs = [2, 4, 8] ∧
    (searchRetry succ).2 = .search_failed := by
  have heq : searchRetry succ =
      ([.attempt 0, .gap 2, .attempt 1, .gap 4, .attempt 2, .gap 8],
        .search_failed) := by
    simp [searchRetry, searchRetryAux, h, searchBackoff]
  refine ⟨heq, ?_, ?_, ?_⟩ <;> rw [heq] <;> rfl

/-- C5 witness: the theorem applied to the always-failing search. -/
theorem c5_witness :
    searchRetry (fun _ => false) =
      ([.attempt 0, .gap 2, .attempt 1, .gap 4, .attempt 2, .gap 8],
        SearchOutcome.search_failed) :=
  (c5_search_retry_bound (fun _ => false) (fun _ => rfl)).1

theorem mem_selectedSorted (interval cmpLen : Nat) (b : ArtifactBundle) (i : Nat) :
    i ∈ selectedSorted interval cmpLen b ↔
      i < b.frames.length ∧
        i ∈ insert 0 (insert (b.frames.length - 1) (candidateSet interval cmpLen b)) := by
  simp [selectedSorted, List.mem_filter, List.mem_range]

theorem selectedSorted_head (interval cmpLen : Nat) (b : ArtifactBundle) (m : Nat)
    (hm : b.frames.length = m + 1) :
    selectedSorted interval cmpLen b =
      0 :: ((List.range m).map (· + 1)).filter
        (fun i => decide (i ∈ insert 0 (insert m (candidateSet interval cmpLen b)))) := by
  unfold selectedSorted
  rw [hm]
  simp only [Nat.add_sub_cancel]
  rw [List.range_succ_eq_map, List.filter_cons]
  simp

/-- C4: for every bundle with at least 2 frames and every frame cap of at
least 2 (default 20), the selected frame set contains frame 0 and frame
F-1 and has size at most the cap, even after the final
sort-by-timestamp-and-truncate-keeping-earliest step. -/
theorem c4_frame_selection_bounds (maxFrames interval cmpLen : Nat) (b : ArtifactBundle)
    (hF : 2 ≤ b.frames.length) (hmax : 2 ≤ maxFrames) :
    0 ∈ selectFrames maxFrames interval cmpLen b ∧
    b.frames.length - 1 ∈ selectFrames maxFrames interval cmpLen b ∧
    (selectFrames maxFrames interval cmpLen b).length ≤ maxFrames := by
  have h0mem : 0 ∈ selectedSorted interval cmpLen b :=
    (mem_selectedSorted _ _ _ _).mpr ⟨by omega, Finset.mem_insert_self _ _⟩
  have hlmem : b.frames.length - 1 ∈ selectedSorted interval cmpLen b :=
    (mem_selectedSorted _ _ _ _).mpr
      ⟨by omega, Finset.mem_insert_of_mem (Finset.mem_insert_self _ _)⟩
  unfold selectFrames
  by_cases hlen : (selectedSorted interval cmpLen b).length ≤ maxFrames
  · rw [if_pos hlen]
    exact ⟨h0mem, hlmem, hlen⟩
  · rw [if_neg hlen]
    obtain ⟨m, hm⟩ : ∃ m, b.frames.length = m + 1 := ⟨b.frames.length - 1, by omega⟩
    have hhead := selectedSorted_head interval cmpLen b m hm
    obtain ⟨k, hk⟩ : ∃ k, maxFrames - 1 = k + 1 := ⟨maxFrames - 2, by omega⟩
    refine ⟨?_, ?_, ?_⟩
    · rw [hhead, hk, List.take_succ_cons]
      exact List.mem_append_left _ (List.mem_cons_self _ _)
    · exact List.mem_append_right _ (List.mem_singleton.mpr rfl)
    · rw [List.length_append]
      simp only [List.length_take, List.length_singleton]
      omega

/-- C4 witness: the theorem applied to a concrete 25-frame bundle with the
default cap of 20: the selection keeps frames 0 and 24 and at most 20. -/
theorem c4_witness :
    0 ∈ selectFrames 20 10 50 demoBundle ∧
    demoBundle.frames.length - 1 ∈ selectFrames 20 10 50 demoBundle ∧
    (selectFrames 20 10 50 demoBundle).length ≤ 20 :=
  c4_frame_selection_bounds 20 10 50 demoBundle (by decide) (by decide)

end TikTokScrapper
